import Mathlib

/-!
Shallow embedding of the `gorm_soft_delete` package (gorm_soft_delete.go):
a soft-delete plugin for the gorm ORM.  The package provides

* `DeletedAt`, a nullable-timestamp wrapper (`sql.NullTime`) with JSON
  marshal/unmarshal methods;
* `parseZeroValueTag`, resolving the "not deleted" sentinel from the
  field's `ZEROVALUE` tag;
* three statement rewrites (`SoftDeleteQueryClause.ModifyStatement`,
  `SoftDeleteUpdateClause.ModifyStatement`,
  `SoftDeleteDeleteClause.ModifyStatement`) that inject exclusion
  predicates, timestamp/actor assignments and primary-key scoping into a
  gorm `Statement`.

Points in time are modelled as natural numbers (an abstract instant).
The gorm statement-building machinery that the package calls into
(`Statement.AddClause`, `clause.Where.MergeClause`, `clause.And`,
`clause.Set.MergeClause`, `Statement.SetColumn`, …) is embedded
faithfully from its observable behaviour, since the rewrites' effect is
defined through it.
-/

/-- Model of Go `time.Time` values: an abstract instant. -/
abbrev GTime := Nat

/-- Model of `sql.NullString` (`String`/`Valid` fields). -/
structure NullString where
  string : String
  valid : Bool
deriving DecidableEq, Repr

/-- Model of the wrapper `type DeletedAt sql.NullTime`: `Time` and
`Valid` fields. -/
structure DeletedAt where
  Time : GTime
  Valid : Bool
deriving DecidableEq, Repr

/-- Model of the JSON texts relevant to `DeletedAt`'s (un)marshalling:
the literal `null`, the canonical JSON encoding of an instant `t`
(what `json.Marshal` produces for a `time.Time`), and any other byte
string (one that is neither `null` nor parseable as a time). -/
inductive JsonText where
  | nullLit : JsonText
  | timeLit : GTime → JsonText
  | other : String → JsonText
deriving DecidableEq, Repr

/-- Model of `DeletedAt.MarshalJSON`: a valid wrapper marshals its time
(`json.Marshal(n.Time)`), an invalid one marshals `nil`, i.e. the
literal `null`. -/
def DeletedAt.MarshalJSON (n : DeletedAt) : JsonText :=
  if n.Valid then JsonText.timeLit n.Time else JsonText.nullLit

/-- Model of `DeletedAt.UnmarshalJSON`.  The Go method mutates its
receiver `n` and returns an `error`; we return the error (as
`Option String`, `none` = success) together with the new receiver
state.  On the literal `null` it clears `Valid` and keeps `Time`; on a
parseable time it sets `Time` and `Valid`; on anything else
`json.Unmarshal` fails without touching `n.Time`, so the receiver is
returned unchanged. -/
def DeletedAt.UnmarshalJSON (n : DeletedAt) (b : JsonText) :
    Option String × DeletedAt :=
  match b with
  | JsonText.nullLit => (none, { n with Valid := false })
  | JsonText.timeLit t => (none, { Time := t, Valid := true })
  | JsonText.other _ => (some "unsupported value", n)

/-- The Go zero value of `DeletedAt` (`var x DeletedAt`): the fresh
receiver a round-trip decodes into. -/
def zeroDeletedAt : DeletedAt := { Time := 0, Valid := false }

/-- Model of `clause.Column`: a table-qualified column reference.  gorm's
zero `Table` is the empty string; `clause.CurrentTable` is a sentinel
string resolved by the SQL builder. -/
structure GColumn where
  Table : String
  Name : String
deriving DecidableEq, Repr

/-- gorm's `clause.CurrentTable` sentinel table name. -/
def currentTable : String := "~~~ct~~~"

/-- Model of the Go values the package stores inside clauses: the
`sql.NullString` sentinel used in the exclusion predicate, `time.Time`
instants, strings (ambient-context actor values) and integers
(primary-key values). -/
inductive GValue where
  | nullString : NullString → GValue
  | timeVal : GTime → GValue
  | str : String → GValue
  | intVal : Int → GValue
deriving DecidableEq, Repr

/-- Model of the gorm `clause.Expression`s this package constructs or
inspects: opaque user conditions (`atom`), `clause.Eq`, `clause.IN`,
`clause.AndConditions` and `clause.OrConditions`. -/
inductive GExpr where
  | atom : Nat → GExpr
  | eq : GColumn → GValue → GExpr
  | inlist : GColumn → List GValue → GExpr
  | and : List GExpr → GExpr
  | or : List GExpr → GExpr

/-- Model of `clause.Assignment` (`Column`/`Value`); the elements of a
`clause.Set`. -/
structure GAssignment where
  Column : GColumn
  Value : GValue
deriving DecidableEq, Repr

/-- `expr.(clause.OrConditions)` succeeding with `len(orCond.Exprs) == 1`:
the test the query rewrite runs over the top-level WHERE expressions. -/
def isOrLen1 : GExpr → Bool
  | GExpr.or es => es.length == 1
  | _ => false

/-- An expression that is an `clause.OrConditions` (an OR-group),
regardless of how many conditions it holds. -/
def isOrGroup : GExpr → Bool
  | GExpr.or _ => true
  | _ => false

/-- Model of gorm's `clause.And` constructor: one expression is returned
as-is unless it is an `OrConditions`, in which case (as for two or more
expressions) the list is wrapped in an `AndConditions`.  The Go function
returns `nil` on an empty list; the rewrite only calls it with a
nonempty one, and we return the empty conjunction there. -/
def clauseAnd : List GExpr → GExpr
  | [] => GExpr.and []
  | [e] =>
    match e with
    | GExpr.or es => GExpr.and [GExpr.or es]
    | e' => e'
  | es => GExpr.and es

/-- Model of the gorm `Statement` as observed and mutated by this
package.  `Clauses` map entries are split into the fields the package
touches: the `"WHERE"` entry (always a `clause.Where`, carried as its
expression list), the `"soft_delete_enabled"` marker key, the `"SET"`
entry and the `"UPDATE"` entry.  The external reflection results
(`GetIdentityFieldValuesMap`/`ToQueryValues` over `ReflectValue` and
`Model`) are carried as the resolved key lists `destKeys`/`modelKeys`
together with the guards the code reads (`Schema != nil`,
`ReflectValue.CanAddr()`, `Dest != stmt.Model`, `Model != nil`).
`sqlLen` is `stmt.SQL.Len()`, `nowTime` the value of the configurable
clock `stmt.DB.NowFunc()`, `ctxDeletedBy` the ambient-context value
under the well-known deleted-by key, and `setColumns` the record of
`stmt.SetColumn` calls (columns marked explicitly set on the in-memory
record, in call order). -/
structure GStatement where
  Unscoped : Bool
  sqlLen : Nat
  whereExprs : Option (List GExpr)
  softDeleteEnabled : Bool
  setAssignments : Option (List GAssignment)
  hasUpdateClause : Bool
  setColumns : List (String × GValue)
  ctxDeletedBy : Option GValue
  nowTime : GTime
  Table : String
  schemaPresent : Bool
  pkDBName : String
  destKeys : List GValue
  canAddr : Bool
  destEqModel : Bool
  modelPresent : Bool
  modelKeys : List GValue

/-- Model of `stmt.AddClause(clause.Where{Exprs: newExprs})`:
`clause.Where.MergeClause` appends the new expressions after the
existing ones (or installs them when no WHERE entry exists). -/
def addWhereClause (stmt : GStatement) (newExprs : List GExpr) : GStatement :=
  match stmt.whereExprs with
  | some old => { stmt with whereExprs := some (old ++ newExprs) }
  | none => { stmt with whereExprs := some newExprs }

/-- Model of `stmt.AddClause(clause.Set{...})`: `clause.Set.MergeClause`
replaces the clause's expression with the new assignment list. -/
def addSetClause (stmt : GStatement) (assigns : List GAssignment) : GStatement :=
  { stmt with setAssignments := some assigns }

/-- Model of `stmt.SetColumn(name, value, true)`: the column is marked
explicitly set on the in-memory record with the given value. -/
def setColumn (stmt : GStatement) (name : String) (v : GValue) : GStatement :=
  { stmt with setColumns := stmt.setColumns ++ [(name, v)] }

/-- Model of `stmt.AddClauseIfNotExists(clause.Update{})`. -/
def addUpdateClauseIfNotExists (stmt : GStatement) : GStatement :=
  if stmt.hasUpdateClause then stmt else { stmt with hasUpdateClause := true }

/-- Modelled from the spec: `stmt.Build(stmt.DB.Callback().Update().Clauses...)`
renders the statement's SQL through the host pipeline's update path (SQL
string generation is the host's, outside this package); the model
records only that the SQL buffer becomes nonempty. -/
def buildUpdateSQL (stmt : GStatement) : GStatement :=
  { stmt with sqlLen := 1 }

/-- Model of `func parseZeroValueTag(f *schema.Field) sql.NullString`.
The field's `ZEROVALUE` tag is carried as `tagZeroValue`; the external
permissive date parser `now.Parse` is carried as the predicate
`nowParseOk` telling on which strings it succeeds. -/
def parseZeroValueTag (nowParseOk : String → Bool) (tagZeroValue : Option String) :
    NullString :=
  match tagZeroValue with
  | some v =>
    if nowParseOk v then { string := v, valid := true }
    else { string := "", valid := false }
  | none => { string := "", valid := false }

/-- Model of `type SoftDeleteQueryClause struct`: of the two
`*schema.Field`s only the DB column name (and, for `ActorField`,
nil-ness) is read by the rewrites. -/
structure SoftDeleteQueryClause where
  ZeroValue : NullString
  FieldDBName : String
  ActorFieldDBName : Option String
deriving DecidableEq, Repr

/-- The exclusion predicate the query rewrite appends:
`clause.Eq{Column: clause.Column{Table: clause.CurrentTable, Name:
sd.Field.DBName}, Value: sd.ZeroValue}`. -/
def sdEq (sd : SoftDeleteQueryClause) : GExpr :=
  GExpr.eq { Table := currentTable, Name := sd.FieldDBName }
    (GValue.nullString sd.ZeroValue)

/-- The defensive normalisation (lines 89-100): when the statement has a
WHERE clause with at least one expression of which some member is an
`OrConditions` with exactly one condition, replace the expression list
by the single `clause.And` of all of them (the loop wraps at the first
such member and breaks, which replaces the whole list). -/
def wrapOrStep (stmt : GStatement) : GStatement :=
  match stmt.whereExprs with
  | some exprs =>
    if 1 ≤ exprs.length ∧ exprs.any isOrLen1 then
      { stmt with whereExprs := some [clauseAnd exprs] }
    else stmt
  | none => stmt

/-- Model of `SoftDeleteQueryClause.ModifyStatement`: when the
`soft_delete_enabled` marker is absent and the statement is not
unscoped, wrap the existing WHERE expressions in `clause.And` if any of
them is an `OrConditions` with exactly one condition, append the
exclusion predicate, and set the marker. -/
def SoftDeleteQueryClause.ModifyStatement (sd : SoftDeleteQueryClause)
    (stmt : GStatement) : GStatement :=
  if !stmt.softDeleteEnabled && !stmt.Unscoped then
    { addWhereClause (wrapOrStep stmt) [sdEq sd] with softDeleteEnabled := true }
  else stmt

/-- Model of `type SoftDeleteUpdateClause struct` (same fields as the
query clause; Go converts between them by a struct cast). -/
structure SoftDeleteUpdateClause where
  ZeroValue : NullString
  FieldDBName : String
  ActorFieldDBName : Option String
deriving DecidableEq, Repr

/-- The struct conversion `SoftDeleteQueryClause(sd)` applied to an
update clause. -/
def SoftDeleteUpdateClause.toQueryClause (sd : SoftDeleteUpdateClause) :
    SoftDeleteQueryClause :=
  { ZeroValue := sd.ZeroValue, FieldDBName := sd.FieldDBName,
    ActorFieldDBName := sd.ActorFieldDBName }

/-- Model of `SoftDeleteUpdateClause.ModifyStatement`: when no SQL has
been rendered and the statement is not unscoped, delegate to the query
rewrite. -/
def SoftDeleteUpdateClause.ModifyStatement (sd : SoftDeleteUpdateClause)
    (stmt : GStatement) : GStatement :=
  if stmt.sqlLen == 0 && !stmt.Unscoped then
    SoftDeleteQueryClause.ModifyStatement sd.toQueryClause stmt
  else stmt

/-- Model of `type SoftDeleteDeleteClause struct` (same fields again). -/
structure SoftDeleteDeleteClause where
  ZeroValue : NullString
  FieldDBName : String
  ActorFieldDBName : Option String
deriving DecidableEq, Repr

/-- The struct conversion `SoftDeleteQueryClause(sd)` applied to a
delete clause. -/
def SoftDeleteDeleteClause.toQueryClause (sd : SoftDeleteDeleteClause) :
    SoftDeleteQueryClause :=
  { ZeroValue := sd.ZeroValue, FieldDBName := sd.FieldDBName,
    ActorFieldDBName := sd.ActorFieldDBName }

/-- The actor-binding step of the delete rewrite (lines 182-187): when an
actor field is configured and the ambient context carries a deleted-by
value, append the assignment `actorColumn = actorValue` to the set and
mark the actor column as set on the record; otherwise change nothing.
Returns the (possibly extended) assignment list with the (possibly
updated) statement. -/
def applyActorStep (actorFieldDBName : Option String) (stmt : GStatement)
    (baseSet : List GAssignment) : List GAssignment × GStatement :=
  match actorFieldDBName with
  | some actorName =>
    match stmt.ctxDeletedBy with
    | some actorValue =>
      (baseSet ++ [{ Column := { Table := "", Name := actorName },
                     Value := actorValue }],
       setColumn stmt actorName actorValue)
    | none => (baseSet, stmt)
  | none => (baseSet, stmt)

/-- The primary-key re-scoping step of the delete rewrite (lines
192-208): when the statement carries a schema, add an `IN` predicate
over the keys resolved from the destination record when any were found,
and — when the reflect value is addressable and the destination differs
from a present model — a second `IN` predicate over the keys resolved
from the model. -/
def pkScopeStep (stmt : GStatement) : GStatement :=
  if stmt.schemaPresent then
    let s :=
      if 0 < stmt.destKeys.length then
        addWhereClause stmt
          [GExpr.inlist { Table := stmt.Table, Name := stmt.pkDBName }
            stmt.destKeys]
      else stmt
    if s.canAddr && !s.destEqModel && s.modelPresent then
      if 0 < s.modelKeys.length then
        addWhereClause s
          [GExpr.inlist { Table := s.Table, Name := s.pkDBName } s.modelKeys]
      else s
    else s
  else stmt

/-- Model of `SoftDeleteDeleteClause.ModifyStatement`: when no SQL is
rendered and the statement is not unscoped, build the timestamp (and
actor) assignment set, mark the columns set on the record, add the
primary-key `IN` predicates resolved from the destination and (when
destination and model diverge) the model value, re-apply the query
rewrite, ensure an UPDATE clause exists and render through the update
path. -/
def SoftDeleteDeleteClause.ModifyStatement (sd : SoftDeleteDeleteClause)
    (stmt : GStatement) : GStatement :=
  if stmt.sqlLen == 0 && !stmt.Unscoped then
    let curTime := stmt.nowTime
    let baseSet : List GAssignment :=
      [{ Column := { Table := "", Name := sd.FieldDBName },
         Value := GValue.timeVal curTime }]
    let step := applyActorStep sd.ActorFieldDBName stmt baseSet
    let stmt2 := setColumn (addSetClause step.2 step.1) sd.FieldDBName
      (GValue.timeVal curTime)
    let stmt4 := SoftDeleteQueryClause.ModifyStatement sd.toQueryClause
      (pkScopeStep stmt2)
    buildUpdateSQL (addUpdateClauseIfNotExists stmt4)
  else stmt

/-- Evaluation environment for the WHERE semantics: truth values for the
opaque user conditions and the row's value at each referenced column. -/
structure Env where
  atoms : Nat → Bool
  cols : GColumn → GValue

mutual

/-- Truth value of one expression as gorm's builder emits it as a
self-contained unit: atoms, `Eq` and `IN` are atomic comparisons;
`AndConditions`/`OrConditions` emit their member chain (parenthesised
when they hold more than one member, in which case the unit is exactly
the chain; a single member emits bare, with the same value). -/
def unitVal (env : Env) : GExpr → Bool
  | GExpr.atom i => env.atoms i
  | GExpr.eq c v => decide (env.cols c = v)
  | GExpr.inlist c vs => decide (env.cols c ∈ vs)
  | GExpr.and es => chainVal env false es
  | GExpr.or es => chainVal env true es

/-- Truth value of the flat chain `buildExprs(es, joinCond)` emits:
units joined by `OR` when `orJoin` is set or the unit is an
`OrConditions` with exactly one member, and by the join condition
otherwise, read back under SQL precedence (`AND` binds tighter than
`OR`).  gorm emits nothing for an empty chain (malformed SQL, never
produced by the modelled flows); the chain's neutral value is used. -/
def chainVal (env : Env) (orJoin : Bool) : List GExpr → Bool
  | [] => !orJoin
  | e :: es => chainRest env orJoin (unitVal env e) false es

/-- Precedence-aware fold over the remaining units: `accAnd` is the
current run of `AND`-joined units, `accOr` the disjunction of the
completed runs. -/
def chainRest (env : Env) (orJoin : Bool) (accAnd accOr : Bool) :
    List GExpr → Bool
  | [] => accOr || accAnd
  | e :: es =>
    if orJoin || isOrLen1 e then
      chainRest env orJoin (unitVal env e) (accOr || accAnd) es
    else
      chainRest env orJoin (accAnd && unitVal env e) accOr es

end

/-- Model of the swap at the head of `clause.Where.Build`: if the first
expression is a single-member `OrConditions`, exchange it with the
first expression that is not one (an `OR` cannot open a WHERE). -/
def whereSwap (exprs : List GExpr) : List GExpr :=
  match exprs.findIdx? (fun e => !isOrLen1 e) with
  | some idx =>
    if idx ≠ 0 then
      ((exprs.set idx (exprs.getD 0 (GExpr.and []))).set 0
        (exprs.getD idx (GExpr.and [])))
    else exprs
  | none => exprs

/-- Truth value of a statement's WHERE expression list as gorm renders
it (`clause.Where.Build`): head swap, then the `AND`-joined chain. -/
def whereVal (env : Env) (exprs : List GExpr) : Bool :=
  chainVal env false (whereSwap exprs)


/-- The WHERE-list transformation `wrapOrStep` performs, as a function of
the optional expression list alone (used to state the rewrite's effect
compactly). -/
def wrapOrList : Option (List GExpr) → Option (List GExpr)
  | some exprs =>
    if 1 ≤ exprs.length ∧ exprs.any isOrLen1 then some [clauseAnd exprs]
    else some exprs
  | none => none

/-- Whether an expression is the exclusion predicate the query rewrite
appends for configuration `sd`. -/
def isSdEq (sd : SoftDeleteQueryClause) : GExpr → Bool
  | GExpr.eq c v =>
    decide (c = { Table := currentTable, Name := sd.FieldDBName } ∧
            v = GValue.nullString sd.ZeroValue)
  | _ => false

/-- The number of exclusion ("not deleted") equality predicates among the
top-level WHERE expressions of a statement. -/
def countSdEq (sd : SoftDeleteQueryClause) (s : GStatement) : Nat :=
  match s.whereExprs with
  | some exprs => exprs.countP (isSdEq sd)
  | none => 0

/-- The normalisation trigger as the specification words it: the
filter's top-level structure contains exactly one OR-group.  Modelled
from the spec's words, for comparison with the source's trigger (some
top-level `OrConditions` with exactly one condition). -/
def specExactlyOneOrGroup (exprs : List GExpr) : Bool :=
  exprs.countP isOrGroup == 1

/-- A soft-delete query-clause configuration on column `deleted_at` with
no explicit sentinel and no actor field (concrete evaluation input). -/
def sdW : SoftDeleteQueryClause :=
  { ZeroValue := { string := "", valid := false }, FieldDBName := "deleted_at",
    ActorFieldDBName := none }

/-- The update-clause configuration with the same fields as `sdW`. -/
def sdWU : SoftDeleteUpdateClause :=
  { ZeroValue := { string := "", valid := false }, FieldDBName := "deleted_at",
    ActorFieldDBName := none }

/-- A delete-clause configuration on `deleted_at` with actor tracking on
column `deleted_by`. -/
def sdWD : SoftDeleteDeleteClause :=
  { ZeroValue := { string := "", valid := false }, FieldDBName := "deleted_at",
    ActorFieldDBName := some "deleted_by" }

/-- A fresh scoped statement over table `users` (concrete evaluation
input). -/
def baseStmt : GStatement :=
  { Unscoped := false, sqlLen := 0, whereExprs := none,
    softDeleteEnabled := false, setAssignments := none,
    hasUpdateClause := false, setColumns := [], ctxDeletedBy := none,
    nowTime := 7, Table := "users", schemaPresent := true, pkDBName := "id",
    destKeys := [], canAddr := true, destEqModel := false,
    modelPresent := true, modelKeys := [] }

/-- `baseStmt` flagged unscoped. -/
def stmtUnscoped : GStatement := { baseStmt with Unscoped := true }

/-- `baseStmt` with the WHERE filter of a `Where(a).Or(b)` chain:
condition `a` followed by a single-member OR-group holding `b`. -/
def stmtOr : GStatement :=
  { baseStmt with whereExprs := some [GExpr.atom 0, GExpr.or [GExpr.atom 1]] }

/-- `baseStmt` with a WHERE filter holding exactly one top-level
OR-group of two conditions. -/
def stmtOneOr : GStatement :=
  { baseStmt with whereExprs := some [GExpr.or [GExpr.atom 0, GExpr.atom 1]] }

/-- `baseStmt` with destination identity keys 1, 2, 3 and a diverging
model carrying key 4. -/
def stmtDel : GStatement :=
  { baseStmt with
    destKeys := [GValue.intVal 1, GValue.intVal 2, GValue.intVal 3],
    modelKeys := [GValue.intVal 4] }

/-- `baseStmt` whose ambient context carries deleted-by value "alice". -/
def stmtActor : GStatement :=
  { baseStmt with ctxDeletedBy := some (GValue.str "alice") }

/-- `baseStmt` with already-rendered SQL (nonempty buffer). -/
def stmtSql : GStatement := { baseStmt with sqlLen := 3 }

/-- A concrete evaluation environment: atom 0 holds, all other atoms
fail, every column carries the null sentinel. -/
def envW : Env :=
  { atoms := fun n => n == 0,
    cols := fun _ => GValue.nullString { string := "", valid := false } }

/-- `wrapOrStep` only rewrites the WHERE expression list. -/
theorem wrapOrStep_eq (s : GStatement) :
    wrapOrStep s = { s with whereExprs := wrapOrList s.whereExprs } := by
  cases h : s.whereExprs with
  | none =>
    simp only [wrapOrStep, wrapOrList, h]
    rw [← h]
  | some exprs =>
    by_cases hc : 1 ≤ exprs.length ∧ exprs.any isOrLen1
    · simp only [wrapOrStep, wrapOrList, h, if_pos hc]
    · simp only [wrapOrStep, wrapOrList, h, if_neg hc]
      rw [← h]

/-- Adding a WHERE clause appends its expressions after the existing
ones and changes nothing else. -/
theorem addWhereClause_eq (s : GStatement) (l : List GExpr) :
    addWhereClause s l
      = { s with whereExprs := some (s.whereExprs.getD [] ++ l) } := by
  cases h : s.whereExprs with
  | none => simp only [addWhereClause, h, Option.getD_none, List.nil_append]
  | some old => simp only [addWhereClause, h, Option.getD_some]

/-- Ensuring the UPDATE clause always leaves it present. -/
theorem addUpdateClauseIfNotExists_eq (s : GStatement) :
    addUpdateClauseIfNotExists s = { s with hasUpdateClause := true } := by
  by_cases h : s.hasUpdateClause = true
  · simp only [addUpdateClauseIfNotExists, h, if_pos]
    rw [← h]
  · simp only [addUpdateClauseIfNotExists, h, if_neg]
    simp at h
    simp [h]

/-- The actor step without an ambient deleted-by value changes
nothing. -/
theorem applyActorStep_ctxNone (a : Option String) (s : GStatement)
    (base : List GAssignment) (h : s.ctxDeletedBy = none) :
    applyActorStep a s base = (base, s) := by
  cases a <;> simp [applyActorStep, h]

/-- The actor step with a configured actor field and an ambient value
appends the actor assignment and marks the actor column set. -/
theorem applyActorStep_some (n : String) (v : GValue) (s : GStatement)
    (base : List GAssignment) (h : s.ctxDeletedBy = some v) :
    applyActorStep (some n) s base
      = (base ++ [{ Column := { Table := "", Name := n }, Value := v }],
         { s with setColumns := s.setColumns ++ [(n, v)] }) := by
  simp [applyActorStep, h, setColumn]

/-- The statement returned by the actor step differs from its input at
most in the set-column record. -/
theorem applyActorStep_snd (a : Option String) (s : GStatement)
    (base : List GAssignment) :
    (applyActorStep a s base).2
      = { s with setColumns := (applyActorStep a s base).2.setColumns } := by
  cases a with
  | none => rfl
  | some n =>
    cases h : s.ctxDeletedBy with
    | none =>
      simp [applyActorStep, h]
      rw [← h]
    | some v => simp [applyActorStep, h, setColumn]

theorem applyActorStep_whereExprs (a : Option String) (s : GStatement)
    (b : List GAssignment) :
    (applyActorStep a s b).2.whereExprs = s.whereExprs := by
  rw [applyActorStep_snd]

theorem applyActorStep_softDeleteEnabled (a : Option String) (s : GStatement)
    (b : List GAssignment) :
    (applyActorStep a s b).2.softDeleteEnabled = s.softDeleteEnabled := by
  rw [applyActorStep_snd]

theorem applyActorStep_Unscoped (a : Option String) (s : GStatement)
    (b : List GAssignment) :
    (applyActorStep a s b).2.Unscoped = s.Unscoped := by
  rw [applyActorStep_snd]

theorem applyActorStep_schemaPresent (a : Option String) (s : GStatement)
    (b : List GAssignment) :
    (applyActorStep a s b).2.schemaPresent = s.schemaPresent := by
  rw [applyActorStep_snd]

theorem applyActorStep_Table (a : Option String) (s : GStatement)
    (b : List GAssignment) :
    (applyActorStep a s b).2.Table = s.Table := by
  rw [applyActorStep_snd]

theorem applyActorStep_pkDBName (a : Option String) (s : GStatement)
    (b : List GAssignment) :
    (applyActorStep a s b).2.pkDBName = s.pkDBName := by
  rw [applyActorStep_snd]

theorem applyActorStep_destKeys (a : Option String) (s : GStatement)
    (b : List GAssignment) :
    (applyActorStep a s b).2.destKeys = s.destKeys := by
  rw [applyActorStep_snd]

theorem applyActorStep_canAddr (a : Option String) (s : GStatement)
    (b : List GAssignment) :
    (applyActorStep a s b).2.canAddr = s.canAddr := by
  rw [applyActorStep_snd]

theorem applyActorStep_destEqModel (a : Option String) (s : GStatement)
    (b : List GAssignment) :
    (applyActorStep a s b).2.destEqModel = s.destEqModel := by
  rw [applyActorStep_snd]

theorem applyActorStep_modelPresent (a : Option String) (s : GStatement)
    (b : List GAssignment) :
    (applyActorStep a s b).2.modelPresent = s.modelPresent := by
  rw [applyActorStep_snd]

theorem applyActorStep_modelKeys (a : Option String) (s : GStatement)
    (b : List GAssignment) :
    (applyActorStep a s b).2.modelKeys = s.modelKeys := by
  rw [applyActorStep_snd]

/-- Closed form of the query rewrite: under the guard it wraps the
filter, appends the exclusion predicate and sets the marker. -/
theorem qmod_eq (sd : SoftDeleteQueryClause) (s : GStatement) :
    SoftDeleteQueryClause.ModifyStatement sd s
      = if s.softDeleteEnabled = false ∧ s.Unscoped = false then
          { s with
            whereExprs := some ((wrapOrList s.whereExprs).getD [] ++ [sdEq sd]),
            softDeleteEnabled := true }
        else s := by
  simp only [SoftDeleteQueryClause.ModifyStatement, wrapOrStep_eq,
    addWhereClause_eq, Bool.and_eq_true, Bool.not_eq_true']

theorem qmod_noop_enabled (sd : SoftDeleteQueryClause) (s : GStatement)
    (h : s.softDeleteEnabled = true) :
    SoftDeleteQueryClause.ModifyStatement sd s = s := by
  rw [qmod_eq]
  simp [h]

theorem qmod_noop_unscoped (sd : SoftDeleteQueryClause) (s : GStatement)
    (h : s.Unscoped = true) :
    SoftDeleteQueryClause.ModifyStatement sd s = s := by
  rw [qmod_eq]
  simp [h]

theorem qmod_marker (sd : SoftDeleteQueryClause) (s : GStatement)
    (h : s.Unscoped = false) :
    (SoftDeleteQueryClause.ModifyStatement sd s).softDeleteEnabled = true := by
  rw [qmod_eq]
  by_cases hm : s.softDeleteEnabled = false
  · simp [hm, h]
  · simp only [hm, false_and, if_neg]
    simpa using hm

theorem qmod_idem (sd : SoftDeleteQueryClause) (s : GStatement) :
    SoftDeleteQueryClause.ModifyStatement sd
        (SoftDeleteQueryClause.ModifyStatement sd s)
      = SoftDeleteQueryClause.ModifyStatement sd s := by
  by_cases hu : s.Unscoped = true
  · rw [qmod_noop_unscoped sd s hu, qmod_noop_unscoped sd s hu]
  · have h : s.Unscoped = false := by simpa using hu
    exact qmod_noop_enabled sd _ (qmod_marker sd s h)

theorem qmod_setAssignments (sd : SoftDeleteQueryClause) (s : GStatement) :
    (SoftDeleteQueryClause.ModifyStatement sd s).setAssignments
      = s.setAssignments := by
  rw [qmod_eq]; split <;> rfl

theorem qmod_setColumns (sd : SoftDeleteQueryClause) (s : GStatement) :
    (SoftDeleteQueryClause.ModifyStatement sd s).setColumns = s.setColumns := by
  rw [qmod_eq]; split <;> rfl

theorem isSdEq_sdEq (sd : SoftDeleteQueryClause) :
    isSdEq sd (sdEq sd) = true := by
  simp [isSdEq, sdEq]

/-- The `clause.And` wrap of a list containing a single-member OR-group
is never itself the exclusion predicate. -/
theorem isSdEq_clauseAnd (sd : SoftDeleteQueryClause) (es : List GExpr)
    (h : es.any isOrLen1 = true) : isSdEq sd (clauseAnd es) = false := by
  match es with
  | [] => simp at h
  | [e] =>
    cases e with
    | or es2 => rfl
    | atom i => simp [isOrLen1] at h
    | eq c v => simp [isOrLen1] at h
    | inlist c vs => simp [isOrLen1] at h
    | and es2 => simp [isOrLen1] at h
  | e1 :: e2 :: rest => rfl

theorem pkScopeStep_setAssignments (s : GStatement) :
    (pkScopeStep s).setAssignments = s.setAssignments := by
  simp only [pkScopeStep, addWhereClause_eq]
  split_ifs <;> rfl

theorem pkScopeStep_setColumns (s : GStatement) :
    (pkScopeStep s).setColumns = s.setColumns := by
  simp only [pkScopeStep, addWhereClause_eq]
  split_ifs <;> rfl

theorem pkScopeStep_softDeleteEnabled (s : GStatement) :
    (pkScopeStep s).softDeleteEnabled = s.softDeleteEnabled := by
  simp only [pkScopeStep, addWhereClause_eq]
  split_ifs <;> rfl

theorem pkScopeStep_Unscoped (s : GStatement) :
    (pkScopeStep s).Unscoped = s.Unscoped := by
  simp only [pkScopeStep, addWhereClause_eq]
  split_ifs <;> rfl

/-- WHERE expressions produced by the primary-key re-scoping step when a
schema is present and destination keys were resolved. -/
theorem pkScopeStep_whereExprs (t : GStatement)
    (hsch : t.schemaPresent = true) (hks : 0 < t.destKeys.length) :
    (pkScopeStep t).whereExprs
      = some ((t.whereExprs.getD [] ++
          [GExpr.inlist { Table := t.Table, Name := t.pkDBName } t.destKeys]) ++
          (if (t.canAddr && !t.destEqModel && t.modelPresent) = true
              ∧ 0 < t.modelKeys.length then
            [GExpr.inlist { Table := t.Table, Name := t.pkDBName } t.modelKeys]
          else [])) := by
  by_cases hd : (t.canAddr && !t.destEqModel && t.modelPresent) = true
  · by_cases hm2 : 0 < t.modelKeys.length
    · simp [pkScopeStep, addWhereClause_eq, hsch, hks, hd, hm2]
    · simp [pkScopeStep, addWhereClause_eq, hsch, hks, hd, hm2]
  · simp [pkScopeStep, addWhereClause_eq, hsch, hks, hd]

/-- Unfolding of the delete rewrite under its guard. -/
theorem dmod_eq (sd : SoftDeleteDeleteClause) (s : GStatement)
    (hsql : s.sqlLen = 0) (hu : s.Unscoped = false) :
    SoftDeleteDeleteClause.ModifyStatement sd s
      = buildUpdateSQL (addUpdateClauseIfNotExists
          (SoftDeleteQueryClause.ModifyStatement sd.toQueryClause
            (pkScopeStep
              (setColumn
                (addSetClause
                  (applyActorStep sd.ActorFieldDBName s
                    [{ Column := { Table := "", Name := sd.FieldDBName },
                       Value := GValue.timeVal s.nowTime }]).2
                  (applyActorStep sd.ActorFieldDBName s
                    [{ Column := { Table := "", Name := sd.FieldDBName },
                       Value := GValue.timeVal s.nowTime }]).1)
                sd.FieldDBName (GValue.timeVal s.nowTime))))) := by
  simp only [SoftDeleteDeleteClause.ModifyStatement, hsql, hu]
  rfl

/-- C1: for every statement whose unscoped flag is true, none of the
three rewrite entry points (query, update, delete) changes the
statement: no exclusion predicate, timestamp assignment or actor
assignment is added, and the clauses and in-memory record are left
unchanged. -/
theorem unscoped_rewrites_noop (sq : SoftDeleteQueryClause)
    (su : SoftDeleteUpdateClause) (sdl : SoftDeleteDeleteClause)
    (s : GStatement) (h : s.Unscoped = true) :
    SoftDeleteQueryClause.ModifyStatement sq s = s ∧
    SoftDeleteUpdateClause.ModifyStatement su s = s ∧
    SoftDeleteDeleteClause.ModifyStatement sdl s = s := by
  refine ⟨qmod_noop_unscoped sq s h, ?_, ?_⟩
  · simp [SoftDeleteUpdateClause.ModifyStatement, h]
  · simp [SoftDeleteDeleteClause.ModifyStatement, h]

/-- Witness for C1 at a concrete unscoped statement. -/
theorem unscoped_rewrites_noop_witness :
    stmtUnscoped.Unscoped = true ∧
    (SoftDeleteQueryClause.ModifyStatement sdW stmtUnscoped = stmtUnscoped ∧
     SoftDeleteUpdateClause.ModifyStatement sdWU stmtUnscoped = stmtUnscoped ∧
     SoftDeleteDeleteClause.ModifyStatement sdWD stmtUnscoped = stmtUnscoped) :=
  ⟨rfl, unscoped_rewrites_noop sdW sdWU sdWD stmtUnscoped rfl⟩

/-- C2: the exclusion-injection step is idempotent: applying it twice
equals applying it once, the first (scoped) application sets the
per-statement marker, and for a scoped statement without the marker and
without a pre-existing exclusion predicate, applying the step twice
leaves exactly one exclusion equality predicate in the WHERE clause. -/
theorem exclusion_injection_idem (sd : SoftDeleteQueryClause)
    (s : GStatement) :
    SoftDeleteQueryClause.ModifyStatement sd
        (SoftDeleteQueryClause.ModifyStatement sd s)
      = SoftDeleteQueryClause.ModifyStatement sd s ∧
    (s.Unscoped = false →
      (SoftDeleteQueryClause.ModifyStatement sd s).softDeleteEnabled = true) ∧
    (s.Unscoped = false → s.softDeleteEnabled = false → countSdEq sd s = 0 →
      countSdEq sd (SoftDeleteQueryClause.ModifyStatement sd
        (SoftDeleteQueryClause.ModifyStatement sd s)) = 1) := by
  refine ⟨qmod_idem sd s, qmod_marker sd s, ?_⟩
  intro hu hm hc
  rw [qmod_idem, qmod_eq, if_pos ⟨hm, hu⟩]
  have h0 : List.countP (isSdEq sd) ((wrapOrList s.whereExprs).getD []) = 0 := by
    cases hw : s.whereExprs with
    | none => simp [wrapOrList]
    | some es =>
      have hc' : List.countP (isSdEq sd) es = 0 := by
        unfold countSdEq at hc
        rw [hw] at hc
        exact hc
      by_cases hone : 1 ≤ es.length ∧ es.any isOrLen1
      · simp [wrapOrList, hone, List.countP_cons, isSdEq_clauseAnd sd es hone.2]
      · have hred : wrapOrList (some es) = some es := by
          simp only [wrapOrList]
          rw [if_neg hone]
        rw [hred, Option.getD_some]
        exact hc'
  simp [countSdEq, List.countP_append, h0, List.countP_cons, isSdEq_sdEq]

/-- Witness for C2 at a concrete fresh scoped statement. -/
theorem exclusion_injection_idem_witness :
    baseStmt.Unscoped = false ∧ baseStmt.softDeleteEnabled = false ∧
    countSdEq sdW baseStmt = 0 ∧
    countSdEq sdW (SoftDeleteQueryClause.ModifyStatement sdW
      (SoftDeleteQueryClause.ModifyStatement sdW baseStmt)) = 1 :=
  ⟨rfl, rfl, rfl, (exclusion_injection_idem sdW baseStmt).2.2 rfl rfl rfl⟩

/-- C3: on a statement whose WHERE filter is `a OR b` (a condition
followed by a single-member OR-group), the rewrite wraps the existing
filter in an explicit AND group and appends the exclusion predicate, so
no user predicate is removed or reordered; the resulting filter renders
to a formula equivalent to `(a OR b) AND deleted_at = sentinel` — the
new predicate is not distributed across the OR branches. -/
theorem or_filter_conjoined (sd : SoftDeleteQueryClause) (i j : Nat)
    (s : GStatement) (env : Env)
    (hm : s.softDeleteEnabled = false) (hu : s.Unscoped = false)
    (hw : s.whereExprs = some [GExpr.atom i, GExpr.or [GExpr.atom j]]) :
    (SoftDeleteQueryClause.ModifyStatement sd s).whereExprs
      = some [GExpr.and [GExpr.atom i, GExpr.or [GExpr.atom j]], sdEq sd] ∧
    whereVal env [GExpr.and [GExpr.atom i, GExpr.or [GExpr.atom j]], sdEq sd]
      = ((env.atoms i || env.atoms j) &&
        decide (env.cols { Table := currentTable, Name := sd.FieldDBName }
          = GValue.nullString sd.ZeroValue)) := by
  constructor
  · rw [qmod_eq, if_pos ⟨hm, hu⟩]
    simp [hw, wrapOrList, isOrLen1, clauseAnd]
  · simp [whereVal, whereSwap, chainVal, chainRest, unitVal, isOrLen1, sdEq,
      List.findIdx?]

/-- Witness for C3 at a concrete `a OR b` statement and environment. -/
theorem or_filter_conjoined_witness :
    stmtOr.softDeleteEnabled = false ∧ stmtOr.Unscoped = false ∧
    stmtOr.whereExprs = some [GExpr.atom 0, GExpr.or [GExpr.atom 1]] ∧
    ((SoftDeleteQueryClause.ModifyStatement sdW stmtOr).whereExprs
      = some [GExpr.and [GExpr.atom 0, GExpr.or [GExpr.atom 1]], sdEq sdW] ∧
    whereVal envW [GExpr.and [GExpr.atom 0, GExpr.or [GExpr.atom 1]], sdEq sdW]
      = ((envW.atoms 0 || envW.atoms 1) &&
        decide (envW.cols { Table := currentTable, Name := sdW.FieldDBName }
          = GValue.nullString sdW.ZeroValue))) :=
  ⟨rfl, rfl, rfl, or_filter_conjoined sdW 0 1 stmtOr envW rfl rfl rfl⟩

/-- C4 counterexample: a filter whose top-level structure contains
exactly one OR-group (of two conditions) is `not` wrapped by the
rewrite — the normalisation triggers on single-member OR-groups, not on
the count of OR-groups, so the claim's "exactly one OR-group" trigger
condition does not describe the code. -/
theorem or_wrap_spec_counterexample :
    specExactlyOneOrGroup [GExpr.or [GExpr.atom 0, GExpr.atom 1]] = true ∧
    stmtOneOr.whereExprs = some [GExpr.or [GExpr.atom 0, GExpr.atom 1]] ∧
    (SoftDeleteQueryClause.ModifyStatement sdW stmtOneOr).whereExprs
      = some [GExpr.or [GExpr.atom 0, GExpr.atom 1], sdEq sdW] ∧
    (SoftDeleteQueryClause.ModifyStatement sdW stmtOneOr).whereExprs
      ≠ some [GExpr.and [GExpr.or [GExpr.atom 0, GExpr.atom 1]], sdEq sdW] := by
  have h3 : (SoftDeleteQueryClause.ModifyStatement sdW stmtOneOr).whereExprs
      = some [GExpr.or [GExpr.atom 0, GExpr.atom 1], sdEq sdW] := rfl
  refine ⟨rfl, rfl, h3, ?_⟩
  rw [h3]
  simp

/-- C4 (amended): the defensive normalisation triggers exactly when some
top-level expression of the existing filter is an OR-group containing
exactly one condition; then the entire filter is wrapped in one
explicit AND group before the exclusion predicate is appended, and
otherwise the existing expressions are left as they are with only the
exclusion predicate appended. -/
theorem or_wrap_trigger (sd : SoftDeleteQueryClause) (s : GStatement)
    (exprs : List GExpr)
    (hm : s.softDeleteEnabled = false) (hu : s.Unscoped = false)
    (hw : s.whereExprs = some exprs) :
    (exprs.any isOrLen1 = true →
      (SoftDeleteQueryClause.ModifyStatement sd s).whereExprs
        = some [clauseAnd exprs, sdEq sd]) ∧
    (exprs.any isOrLen1 = false →
      (SoftDeleteQueryClause.ModifyStatement sd s).whereExprs
        = some (exprs ++ [sdEq sd])) := by
  constructor
  · intro h
    have hlen : 1 ≤ exprs.length := by
      rcases List.any_eq_true.mp h with ⟨x, hx, _⟩
      exact List.length_pos.mpr (List.ne_nil_of_mem hx)
    rw [qmod_eq, if_pos ⟨hm, hu⟩]
    simp [hw, wrapOrList, hlen, h]
  · intro h
    rw [qmod_eq, if_pos ⟨hm, hu⟩]
    simp [hw, wrapOrList, h]

/-- Witness for the amended C4 at a filter with a single-member
OR-group. -/
theorem or_wrap_trigger_witness :
    stmtOr.softDeleteEnabled = false ∧ stmtOr.Unscoped = false ∧
    stmtOr.whereExprs = some [GExpr.atom 0, GExpr.or [GExpr.atom 1]] ∧
    [GExpr.atom 0, GExpr.or [GExpr.atom 1]].any isOrLen1 = true ∧
    (SoftDeleteQueryClause.ModifyStatement sdW stmtOr).whereExprs
      = some [clauseAnd [GExpr.atom 0, GExpr.or [GExpr.atom 1]], sdEq sdW] :=
  ⟨rfl, rfl, rfl, rfl,
    (or_wrap_trigger sdW stmtOr [GExpr.atom 0, GExpr.or [GExpr.atom 1]]
      rfl rfl rfl).1 rfl⟩

/-- C5 counterexample: strict round-tripping into a fresh (zero)
receiver fails for a not-present wrapper carrying a stale time value:
marshalling yields `null`, and unmarshalling `null` into a fresh
receiver cannot restore the stale `Time` field. -/
theorem roundtrip_strict_counterexample :
    (DeletedAt.UnmarshalJSON zeroDeletedAt
        (DeletedAt.MarshalJSON { Time := 5, Valid := false })).2
      ≠ { Time := 5, Valid := false } := by
  decide

/-- C5 (amended): marshalling a not-present wrapper yields exactly the
literal `null` (and only then); round-tripping through a fresh receiver
always succeeds, preserves the present flag, and restores a present
wrapper exactly. -/
theorem marshal_roundtrip (x : DeletedAt) :
    (DeletedAt.MarshalJSON x = JsonText.nullLit ↔ x.Valid = false) ∧
    (DeletedAt.UnmarshalJSON zeroDeletedAt (DeletedAt.MarshalJSON x)).1 = none ∧
    (DeletedAt.UnmarshalJSON zeroDeletedAt (DeletedAt.MarshalJSON x)).2.Valid
      = x.Valid ∧
    (x.Valid = true →
      (DeletedAt.UnmarshalJSON zeroDeletedAt (DeletedAt.MarshalJSON x)).2
        = x) := by
  obtain ⟨t, v⟩ := x
  cases v <;>
    simp [DeletedAt.MarshalJSON, DeletedAt.UnmarshalJSON, zeroDeletedAt]

/-- Witness for the amended C5 at a present wrapper. -/
theorem marshal_roundtrip_witness :
    (({ Time := 3, Valid := true } : DeletedAt)).Valid = true ∧
    (DeletedAt.UnmarshalJSON zeroDeletedAt
        (DeletedAt.MarshalJSON { Time := 3, Valid := true })).2
      = { Time := 3, Valid := true } :=
  ⟨rfl, (marshal_roundtrip { Time := 3, Valid := true }).2.2.2 rfl⟩

/-- C6: sentinel resolution is a pure function of the configuration tag:
a present tag accepted by the date parser resolves to the tag's literal
string unchanged, an absent or unparseable tag resolves to the native
absence value (`Valid=false`), resolution never errors, and the
resolved sentinel is exactly the value carried by the injected
exclusion equality predicate. -/
theorem sentinel_resolution (p : String → Bool) (tag : Option String) :
    (∀ v, tag = some v → p v = true →
      parseZeroValueTag p tag = { string := v, valid := true }) ∧
    (tag = none →
      parseZeroValueTag p tag = { string := "", valid := false }) ∧
    (∀ v, tag = some v → p v = false →
      parseZeroValueTag p tag = { string := "", valid := false }) ∧
    (∀ (fld : String) (s : GStatement),
      s.softDeleteEnabled = false → s.Unscoped = false → s.whereExprs = none →
      (SoftDeleteQueryClause.ModifyStatement
          { ZeroValue := parseZeroValueTag p tag, FieldDBName := fld,
            ActorFieldDBName := none } s).whereExprs
        = some [GExpr.eq { Table := currentTable, Name := fld }
            (GValue.nullString (parseZeroValueTag p tag))]) := by
  refine ⟨?_, ?_, ?_, ?_⟩
  · intro v hv hp
    simp [parseZeroValueTag, hv, hp]
  · intro hv
    simp [parseZeroValueTag, hv]
  · intro v hv hp
    simp [parseZeroValueTag, hv, hp]
  · intro fld s hm hu hw
    rw [qmod_eq]
    simp [hm, hu, hw, wrapOrList, sdEq]

/-- Witness for C6 with tag "2000-01-01" accepted by the parser. -/
theorem sentinel_resolution_witness :
    (fun (_ : String) => true) "2000-01-01" = true ∧
    parseZeroValueTag (fun _ => true) (some "2000-01-01")
      = { string := "2000-01-01", valid := true } :=
  ⟨rfl, (sentinel_resolution (fun _ => true) (some "2000-01-01")).1
    "2000-01-01" rfl rfl⟩

/-- C7: a delete rewrite on a fresh scoped statement with a schema whose
destination record resolves to primary-key values adds an `IN`
predicate over those keys, scoped to the target table, to the WHERE
clause; and when the reflect value is addressable and the destination
differs from a present model whose keys resolve as well, a second `IN`
predicate over the model's keys is added. -/
theorem delete_pk_scoping (sd : SoftDeleteDeleteClause) (s : GStatement)
    (ks : List GValue)
    (hsql : s.sqlLen = 0) (hu : s.Unscoped = false)
    (hm : s.softDeleteEnabled = false) (hw : s.whereExprs = none)
    (hsch : s.schemaPresent = true) (hdk : s.destKeys = ks)
    (hks : 0 < ks.length) :
    GExpr.inlist { Table := s.Table, Name := s.pkDBName } ks
      ∈ ((SoftDeleteDeleteClause.ModifyStatement sd s).whereExprs.getD []) ∧
    (s.canAddr = true → s.destEqModel = false → s.modelPresent = true →
      0 < s.modelKeys.length →
      GExpr.inlist { Table := s.Table, Name := s.pkDBName } s.modelKeys
        ∈ ((SoftDeleteDeleteClause.ModifyStatement sd s).whereExprs.getD [])) := by
  rw [dmod_eq sd s hsql hu]
  set base : List GAssignment :=
    [{ Column := { Table := "", Name := sd.FieldDBName },
       Value := GValue.timeVal s.nowTime }] with hbase
  set t := setColumn
      (addSetClause (applyActorStep sd.ActorFieldDBName s base).2
        (applyActorStep sd.ActorFieldDBName s base).1)
      sd.FieldDBName (GValue.timeVal s.nowTime) with ht
  have htw : t.whereExprs = none := by
    simp only [ht, setColumn, addSetClause, applyActorStep_whereExprs]
    exact hw
  have htsch : t.schemaPresent = true := by
    simp only [ht, setColumn, addSetClause, applyActorStep_schemaPresent]
    exact hsch
  have htdk : t.destKeys = ks := by
    simp only [ht, setColumn, addSetClause, applyActorStep_destKeys]
    exact hdk
  have htT : t.Table = s.Table := by
    simp only [ht, setColumn, addSetClause, applyActorStep_Table]
  have htpk : t.pkDBName = s.pkDBName := by
    simp only [ht, setColumn, addSetClause, applyActorStep_pkDBName]
  have htca : t.canAddr = s.canAddr := by
    simp only [ht, setColumn, addSetClause, applyActorStep_canAddr]
  have htdm : t.destEqModel = s.destEqModel := by
    simp only [ht, setColumn, addSetClause, applyActorStep_destEqModel]
  have htmp : t.modelPresent = s.modelPresent := by
    simp only [ht, setColumn, addSetClause, applyActorStep_modelPresent]
  have htmk : t.modelKeys = s.modelKeys := by
    simp only [ht, setColumn, addSetClause, applyActorStep_modelKeys]
  have htm : t.softDeleteEnabled = false := by
    simp only [ht, setColumn, addSetClause, applyActorStep_softDeleteEnabled]
    exact hm
  have htu : t.Unscoped = false := by
    simp only [ht, setColumn, addSetClause, applyActorStep_Unscoped]
    exact hu
  have hpk := pkScopeStep_whereExprs t htsch (by rw [htdk]; exact hks)
  rw [htw, htdk, htT, htpk, htca, htdm, htmp, htmk] at hpk
  have hpk' : (pkScopeStep t).whereExprs
      = some ([GExpr.inlist { Table := s.Table, Name := s.pkDBName } ks] ++
          (if (s.canAddr && !s.destEqModel && s.modelPresent) = true
              ∧ 0 < s.modelKeys.length then
            [GExpr.inlist { Table := s.Table, Name := s.pkDBName } s.modelKeys]
          else [])) := by
    simpa using hpk
  have hqm : (pkScopeStep t).softDeleteEnabled = false := by
    rw [pkScopeStep_softDeleteEnabled]; exact htm
  have hqu : (pkScopeStep t).Unscoped = false := by
    rw [pkScopeStep_Unscoped]; exact htu
  have hnoor : (([GExpr.inlist { Table := s.Table, Name := s.pkDBName } ks] ++
      (if (s.canAddr && !s.destEqModel && s.modelPresent) = true
          ∧ 0 < s.modelKeys.length then
        [GExpr.inlist { Table := s.Table, Name := s.pkDBName } s.modelKeys]
      else [])).any isOrLen1) = false := by
    split <;> simp [isOrLen1]
  have hfinal :
      (SoftDeleteQueryClause.ModifyStatement sd.toQueryClause
          (pkScopeStep t)).whereExprs
        = some (([GExpr.inlist { Table := s.Table, Name := s.pkDBName } ks] ++
            (if (s.canAddr && !s.destEqModel && s.modelPresent) = true
                ∧ 0 < s.modelKeys.length then
              [GExpr.inlist { Table := s.Table, Name := s.pkDBName }
                s.modelKeys]
            else [])) ++ [sdEq sd.toQueryClause]) := by
    rw [qmod_eq, if_pos ⟨hqm, hqu⟩, hpk']
    simp only [wrapOrList]
    rw [if_neg (fun hq => Bool.false_ne_true (hnoor.symm.trans hq.2))]
    simp
  constructor
  · simp [buildUpdateSQL, addUpdateClauseIfNotExists_eq, hfinal]
  · intro hca hdm2 hmp2 hmk2
    simp [buildUpdateSQL, addUpdateClauseIfNotExists_eq, hfinal, hca, hdm2,
      hmp2, hmk2]

/-- Witness for C7 with destination keys 1, 2, 3 and a diverging model
with key 4. -/
theorem delete_pk_scoping_witness :
    stmtDel.sqlLen = 0 ∧ stmtDel.Unscoped = false ∧
    stmtDel.softDeleteEnabled = false ∧ stmtDel.whereExprs = none ∧
    stmtDel.schemaPresent = true ∧
    stmtDel.destKeys = [GValue.intVal 1, GValue.intVal 2, GValue.intVal 3] ∧
    (GExpr.inlist { Table := stmtDel.Table, Name := stmtDel.pkDBName }
        [GValue.intVal 1, GValue.intVal 2, GValue.intVal 3]
      ∈ ((SoftDeleteDeleteClause.ModifyStatement sdWD
          stmtDel).whereExprs.getD [])) ∧
    (GExpr.inlist { Table := stmtDel.Table, Name := stmtDel.pkDBName }
        stmtDel.modelKeys
      ∈ ((SoftDeleteDeleteClause.ModifyStatement sdWD
          stmtDel).whereExprs.getD [])) := by
  have h := delete_pk_scoping sdWD stmtDel
    [GValue.intVal 1, GValue.intVal 2, GValue.intVal 3]
    rfl rfl rfl rfl rfl rfl (by decide)
  exact ⟨rfl, rfl, rfl, rfl, rfl, rfl, h.1, h.2 rfl rfl rfl (by decide)⟩

/-- C8: in a delete rewrite with an actor field configured, an ambient
deleted-by value yields an actor assignment in the update's assignment
set (after the timestamp assignment) and marks the actor column as set
on the in-memory record; an absent ambient value yields no actor
assignment and no actor column mark. -/
theorem delete_actor_binding (sd : SoftDeleteDeleteClause) (s : GStatement)
    (aName : String)
    (hsql : s.sqlLen = 0) (hu : s.Unscoped = false)
    (ha : sd.ActorFieldDBName = some aName) :
    (∀ v, s.ctxDeletedBy = some v →
      (SoftDeleteDeleteClause.ModifyStatement sd s).setAssignments
        = some [{ Column := { Table := "", Name := sd.FieldDBName },
                  Value := GValue.timeVal s.nowTime },
                { Column := { Table := "", Name := aName }, Value := v }] ∧
      (SoftDeleteDeleteClause.ModifyStatement sd s).setColumns
        = (s.setColumns ++ [(aName, v)])
            ++ [(sd.FieldDBName, GValue.timeVal s.nowTime)]) ∧
    (s.ctxDeletedBy = none →
      (SoftDeleteDeleteClause.ModifyStatement sd s).setAssignments
        = some [{ Column := { Table := "", Name := sd.FieldDBName },
                  Value := GValue.timeVal s.nowTime }] ∧
      (SoftDeleteDeleteClause.ModifyStatement sd s).setColumns
        = s.setColumns ++ [(sd.FieldDBName, GValue.timeVal s.nowTime)]) := by
  rw [dmod_eq sd s hsql hu]
  constructor
  · intro v hctx
    rw [ha, applyActorStep_some aName v s _ hctx]
    constructor <;>
      simp [buildUpdateSQL, addUpdateClauseIfNotExists_eq, qmod_setAssignments,
        qmod_setColumns, pkScopeStep_setAssignments, pkScopeStep_setColumns,
        setColumn, addSetClause]
  · intro hctx
    rw [applyActorStep_ctxNone sd.ActorFieldDBName s _ hctx]
    constructor <;>
      simp [buildUpdateSQL, addUpdateClauseIfNotExists_eq, qmod_setAssignments,
        qmod_setColumns, pkScopeStep_setAssignments, pkScopeStep_setColumns,
        setColumn, addSetClause]

/-- Witness for C8 with ambient deleted-by value "alice". -/
theorem delete_actor_binding_witness :
    stmtActor.sqlLen = 0 ∧ stmtActor.Unscoped = false ∧
    sdWD.ActorFieldDBName = some "deleted_by" ∧
    stmtActor.ctxDeletedBy = some (GValue.str "alice") ∧
    ((SoftDeleteDeleteClause.ModifyStatement sdWD stmtActor).setAssignments
      = some [{ Column := { Table := "", Name := sdWD.FieldDBName },
                Value := GValue.timeVal stmtActor.nowTime },
              { Column := { Table := "", Name := "deleted_by" },
                Value := GValue.str "alice" }] ∧
    (SoftDeleteDeleteClause.ModifyStatement sdWD stmtActor).setColumns
      = (stmtActor.setColumns ++ [("deleted_by", GValue.str "alice")])
          ++ [(sdWD.FieldDBName, GValue.timeVal stmtActor.nowTime)]) :=
  ⟨rfl, rfl, rfl, rfl,
    (delete_actor_binding sdWD stmtActor "deleted_by" rfl rfl rfl).1
      (GValue.str "alice") rfl⟩

/-- C9: on a statement that already has rendered SQL (nonempty SQL
buffer), the update rewrite and the delete rewrite are complete no-ops:
the statement, its clauses and its in-memory record are returned
unchanged. -/
theorem rendered_sql_noop (su : SoftDeleteUpdateClause)
    (sdl : SoftDeleteDeleteClause) (s : GStatement) (h : s.sqlLen ≠ 0) :
    SoftDeleteUpdateClause.ModifyStatement su s = s ∧
    SoftDeleteDeleteClause.ModifyStatement sdl s = s := by
  constructor <;>
    simp [SoftDeleteUpdateClause.ModifyStatement,
      SoftDeleteDeleteClause.ModifyStatement, h]

/-- Witness for C9 at a statement with a nonempty SQL buffer. -/
theorem rendered_sql_noop_witness :
    stmtSql.sqlLen ≠ 0 ∧
    (SoftDeleteUpdateClause.ModifyStatement sdWU stmtSql = stmtSql ∧
     SoftDeleteDeleteClause.ModifyStatement sdWD stmtSql = stmtSql) :=
  ⟨by decide, rendered_sql_noop sdWU sdWD stmtSql (by decide)⟩

/-- C10: on any input that is neither the literal `null` nor a parseable
time, unmarshalling fails with an error and leaves the receiver — in
particular its validity flag — unchanged, so a not-present wrapper is
still not-present after the failed call. -/
theorem unmarshal_failure_keeps_state (n : DeletedAt) (s : String) :
    (DeletedAt.UnmarshalJSON n (JsonText.other s)).1.isSome = true ∧
    (DeletedAt.UnmarshalJSON n (JsonText.other s)).2.Valid = n.Valid ∧
    (DeletedAt.UnmarshalJSON n (JsonText.other s)).2 = n := by
  simp [DeletedAt.UnmarshalJSON]
